import Mathlib

/-!
Shallow embedding of app/publish/publish.go from the lbrytv repository.

The handler bridges a multipart upload carrying a JSONRPC envelope to a
downstream RPC backend: it authenticates, saves the uploaded file under a
per-user directory, parses the envelope, dispatches the call through a
Caller whose preflight hook injects the saved path, serializes the
response, and removes the scratch file via a deferred cleanup.

External collaborators (form parsing, JSON decoding, the RPC transport,
serialization, the filesystem) are modelled as oracles supplied in the
environment; the control flow of Handle, saveFile, createFile, CanHandle
and getCaller is translated statement by statement from the source.
-/

/-- POST field containing the file upload (constant fileFieldName). -/
def fileFieldName : String := "file"

/-- POST field containing the JSONRPC request (constant jsonRPCFieldName). -/
def jsonRPCFieldName : String := "json_payload"

/-- Reserved parameter key receiving the saved file path (constant fileNameParam). -/
def fileNameParam : String := "file_path"

/-- Go error values that reach the handler, as data. missingFile is
http.ErrMissingFile; notMultipart is http.ErrNotMultipart; tooManyAttempts
is the error ioutil.TempFile returns when it exhausts its retry budget. -/
inductive GoErr
  | missingFile
  | notMultipart
  | ioErr (s : String)
  | jsonErr (s : String)
  | tooManyAttempts
  | err (s : String)
  deriving DecidableEq

/-- JSON parameter values, enough structure to distinguish client-supplied
values from the path the hook writes. -/
inductive JSON
  | str (s : String)
  | num (n : Int)
  | null
  deriving DecidableEq

/-- Lookup in a Go map modelled as an association list. -/
def mapLookup : List (String × JSON) → String → Option JSON
  | [], _ => none
  | (k1, v) :: rest, k => if k1 = k then some v else mapLookup rest k

/-- Go map assignment: overwrite the key if present, append otherwise. -/
def mapSet : List (String × JSON) → String → JSON → List (String × JSON)
  | [], k, v => [(k, v)]
  | (k1, v1) :: rest, k, v =>
      if k1 = k then (k, v) :: rest else (k1, v1) :: mapSet rest k v

/-- jsonrpc.RPCRequest: a method name and a parameter mapping. -/
structure RPCRequest where
  method : String
  params : List (String × JSON)
  deriving DecidableEq

/-- jsonrpc.RPCResponse, opaque beyond carrying a result. -/
structure RPCResponse where
  result : JSON
  deriving DecidableEq

/-- cache.QueryCache, opaque to the core and merely passed through. -/
structure QueryCache where
  tag : Nat
  deriving DecidableEq

/-- The authenticated user: an id and the assigned SDK (backend) address
as read by auth.SDKAddress. -/
structure User where
  id : Int
  sdkAddress : String
  deriving DecidableEq

/-- The file form part: its claimed original filename and the outcome of
streaming its bytes to disk (io.Copy), none meaning success. -/
structure FilePart where
  filename : String
  copyErr : Option GoErr
  deriving DecidableEq

/-- The inbound HTTP request, modelled by the outcomes of r.FormFile and
r.FormValue on each field name. -/
structure Request where
  formFile : String → Except GoErr FilePart
  formValue : String → String

/-- The filesystem and OS environment: the set of existing paths, the
outcome of os.MkdirAll per directory, the stream of random strings drawn
by ioutil.TempFile, and the outcome of closing the file at a path. -/
structure FsEnv where
  fs : List String
  mkdirErr : String → Option GoErr
  rands : Nat → String
  closeErr : String → Option GoErr

/-- Handler has path to save uploads to. -/
structure Handler where
  UploadPath : String

/-- Models Go path.Join on already-clean components: non-empty components
joined with a slash. -/
def goPathJoin (a b : String) : String :=
  if a = "" then b else if b = "" then a else a ++ "/" ++ b

/-- Models the prefixAndSuffix step of ioutil.TempFile: split the pattern
around its last star; with no star the whole pattern is the first half. -/
def splitLastStar : List Char → List Char × List Char
  | [] => ([], [])
  | c :: cs =>
      if '*' ∈ cs then
        let ps := splitLastStar cs
        (c :: ps.1, ps.2)
      else if c = '*' then ([], cs)
      else
        let ps := splitLastStar cs
        (c :: ps.1, ps.2)

/-- The candidate file name ioutil.TempFile builds from the pattern and one
random string: the random string replaces the last star of the pattern, or
is appended when the pattern has no star. -/
def tempName (pattern : String) (rand : String) : String :=
  let ps := splitLastStar pattern.toList
  ps.1.asString ++ rand ++ ps.2.asString

/-- A saved file handle, identified by its path as returned by Name(). -/
structure FileHandle where
  name : String
  deriving DecidableEq

/-- Models the retry loop of ioutil.TempFile (Go budgets 10000 attempts):
draw the next random string, build the candidate name inside dir, and
create it exclusively; a name that already exists makes the loop retry
with the next random string. -/
def tempFileTry : Nat → Nat → String → String → FsEnv → Except GoErr FileHandle × List String
  | 0, _, _, _, env => (.error .tooManyAttempts, env.fs)
  | n + 1, i, dir, pattern, env =>
      let candidate := goPathJoin dir (tempName pattern (env.rands i))
      if candidate ∈ env.fs then
        tempFileTry n (i + 1) dir pattern env
      else
        (.ok ⟨candidate⟩, candidate :: env.fs)

/-- Models ioutil.TempFile. -/
def tempFile (env : FsEnv) (dir pattern : String) : Except GoErr FileHandle × List String :=
  tempFileTry 10000 0 dir pattern env

/-- Embeds Handler.createFile: ensure the per-user directory named by the
decimal user id exists under UploadPath, then open a fresh temp file there
with the pattern star-underscore-origFilename. -/
def Handler.createFile (h : Handler) (userID : Int) (origFilename : String)
    (env : FsEnv) : Except GoErr FileHandle × List String :=
  let dir := goPathJoin h.UploadPath (toString userID)
  match env.mkdirErr dir with
  | some e => (.error e, env.fs)
  | none => tempFile { env with fs := dir :: env.fs } dir ("*_" ++ origFilename)

/-- The Go style two-value return of saveFile, plus the filesystem it
leaves behind. -/
structure SaveResult where
  file : Option FileHandle
  err : Option GoErr
  fs : List String

/-- Embeds Handler.saveFile: open the file form part, create the scratch
file, stream the part into it, close it; each failing step returns the
error with a nil file, mirroring every return statement of the source. -/
def Handler.saveFile (h : Handler) (r : Request) (userID : Int) (env : FsEnv) : SaveResult :=
  match r.formFile fileFieldName with
  | .error e => ⟨none, some e, env.fs⟩
  | .ok part =>
    match h.createFile userID part.filename env with
    | (.error e, fs1) => ⟨none, some e, fs1⟩
    | (.ok f, fs1) =>
      match part.copyErr with
      | some e => ⟨none, some e, fs1⟩
      | none =>
        match env.closeErr f.name with
        | some e => ⟨none, some e, fs1⟩
        | none => ⟨some f, none, fs1⟩

/-- Models errors.Is(err, http.ErrMissingFile) on the outcome of FormFile:
a nil error or any other error is not a match. -/
def isMissingFileErr : Except GoErr FilePart → Bool
  | .error .missingFile => true
  | _ => false

/-- Whether FormFile actually produced a file part. -/
def hasFilePart (r : Request) : Bool :=
  (r.formFile fileFieldName).toOption.isSome

/-- Embeds Handler.CanHandle: the FormFile error is not ErrMissingFile and
the JSONRPC field is non-empty. -/
def Handler.CanHandle (_ : Handler) (r : Request) : Bool :=
  !(isMissingFileErr (r.formFile fileFieldName)) && r.formValue jsonRPCFieldName != ""

/-- Modelled from the spec: the query object of the query package (not
under src) wrapping the RPC request being dispatched. -/
structure Query where
  request : RPCRequest

/-- Modelled from the spec: ParamsAsMap reads the parameter mapping of the
wrapped call. -/
def Query.ParamsAsMap (q : Query) : List (String × JSON) := q.request.params

/-- Modelled from the spec: the Caller of the query package (not under
src) carries a backend address, the user id, an optional cache and an
ordered list of preflight hooks, each of which may short-circuit dispatch
with a synthetic response or mutate the query and let dispatch proceed. -/
structure Caller where
  sdkAddress : String
  userID : Int
  cache : Option QueryCache
  hooks : List (Query → Option RPCResponse × Query)

/-- Modelled from the spec: query.NewCaller builds a Caller with no cache
and no hooks. -/
def NewCaller (sdkAddress : String) (userID : Int) : Caller :=
  ⟨sdkAddress, userID, none, []⟩

/-- Modelled from the spec: AddPreflightHook appends one hook to the
ordered hook list. -/
def Caller.AddPreflightHook (c : Caller)
    (hook : Query → Option RPCResponse × Query) : Caller :=
  { c with hooks := c.hooks ++ [hook] }

/-- Embeds getCaller: build a Caller for the backend address, set the
cache, and register the one preflight hook that writes the saved file
path into the call parameters under the reserved key. -/
def getCaller (sdkAddress filename : String) (userID : Int)
    (qCache : Option QueryCache) : Caller :=
  let c := NewCaller sdkAddress userID
  let c := { c with cache := qCache }
  c.AddPreflightHook (fun q =>
    let params := q.ParamsAsMap
    let params := mapSet params fileNameParam (JSON.str filename)
    (none, { q with request := { q.request with params := params } }))

/-- Modelled from the spec: preflight hooks run in order before dispatch;
the first early response short-circuits, otherwise the mutated query
proceeds to the next hook. -/
def runHooks : List (Query → Option RPCResponse × Query) → Query → Option RPCResponse × Query
  | [], q => (none, q)
  | hook :: rest, q =>
      match hook q with
      | (some resp, q1) => (some resp, q1)
      | (none, q1) => runHooks rest q1

/-- The outcome of Caller.Call: the request delivered downstream, when
dispatch happened, and the response or error. -/
structure CallOutcome where
  dispatched : Option RPCRequest
  result : Except GoErr RPCResponse

/-- Modelled from the spec: Caller.Call runs the preflight hooks and then
dispatches the rewritten request to the backend transport, modelled by an
oracle. -/
def Caller.Call (c : Caller) (oracle : RPCRequest → Except GoErr RPCResponse)
    (req : RPCRequest) : CallOutcome :=
  let stage := runHooks c.hooks ⟨req⟩
  match stage.1 with
  | some resp => ⟨none, .ok resp⟩
  | none => ⟨some stage.2.request, oracle stage.2.request⟩

/-- The JSON shaped wire bodies the handler writes, one constructor per
w.Write call site: rpcerrors.ErrorToJSON for auth failures,
NewInternalError(...).JSON(), NewJSONParseError(...).JSON(),
rpcerrors.ToJSON for Call errors, and the serialized success payload.
panicNilDeref marks the branch where Go would dereference a nil file. -/
inductive Body
  | authError (e : GoErr)
  | internalError (e : GoErr)
  | jsonParseError (e : GoErr)
  | callError (e : GoErr)
  | serialized (s : String)
  | panicNilDeref
  deriving DecidableEq

/-- The collaborators Handle consults, as oracles: the combined outcome of
auth.FromRequest and proxy.GetAuthError, the request, the cache flags, the
json.Unmarshal outcome per payload string, the RPC transport, and
responses.JSONRPCSerialize. -/
structure HandleEnv where
  authResult : Except GoErr User
  req : Request
  cacheOnRequest : Bool
  reqCache : Option QueryCache
  jsonParse : String → Except GoErr RPCRequest
  callOracle : RPCRequest → Except GoErr RPCResponse
  serialize : RPCResponse → Except GoErr String

/-- What a run of Handle leaves behind: the body written to the response,
the final filesystem, the request delivered downstream when Call
dispatched one, and the scratch path when saveFile succeeded. -/
structure HandleResult where
  response : Body
  fs : List String
  dispatched : Option RPCRequest
  savedPath : Option String

/-- Embeds Handler.Handle statement by statement: authenticate, reject an
empty SDK address, save the upload, register the deferred os.Remove of the
saved path (applied on every later exit), read the cache flag, parse the
JSONRPC envelope, dispatch through getCaller, serialize. os.Remove is
modelled as effective; its own failure is observability-only in the
source. -/
def Handler.Handle (h : Handler) (env : HandleEnv) (d : FsEnv) : HandleResult :=
  match env.authResult with
  | .error authErr => ⟨.authError authErr, d.fs, none, none⟩
  | .ok user =>
    if user.sdkAddress = "" then
      ⟨.internalError (.err "user does not have sdk address assigned"), d.fs, none, none⟩
    else
      let sv := h.saveFile env.req user.id d
      match sv.err with
      | some e => ⟨.internalError e, sv.fs, none, none⟩
      | none =>
        match sv.file with
        | none => ⟨.panicNilDeref, sv.fs, none, none⟩
        | some f =>
          let removed := sv.fs.filter (fun p => p != f.name)
          let qCache := if env.cacheOnRequest then env.reqCache else none
          match env.jsonParse (env.req.formValue jsonRPCFieldName) with
          | .error e => ⟨.jsonParseError e, removed, none, some f.name⟩
          | .ok rpcReq =>
            let c := getCaller user.sdkAddress f.name user.id qCache
            let out := c.Call env.callOracle rpcReq
            match out.result with
            | .error e => ⟨.callError e, removed, out.dispatched, some f.name⟩
            | .ok rpcRes =>
              match env.serialize rpcRes with
              | .error e => ⟨.internalError e, removed, out.dispatched, some f.name⟩
              | .ok s => ⟨.serialized s, removed, out.dispatched, some f.name⟩

deriving instance DecidableEq for Except

/-- A sample environment: an empty filesystem, no mkdir or close failures,
and the random stream R0, R1, R2, and so on. -/
def fsEnv0 : FsEnv := ⟨[], fun _ => none, fun i => "R" ++ toString i, fun _ => none⟩

/-- A handler saving uploads under the root up. -/
def hUp : Handler := ⟨"up"⟩

/-- A healthy upload: a file part named a whose copy succeeds, with a
non-empty JSONRPC field. -/
def reqGood : Request :=
  ⟨fun _ => .ok ⟨"a", none⟩, fun k => if k == jsonRPCFieldName then "j" else ""⟩

/-- An RPC request whose client tries to smuggle its own file path. -/
def goodRPCRequest : RPCRequest :=
  ⟨"publish", [(fileNameParam, JSON.str "evil"), ("name", JSON.str "x")]⟩

/-- The request goodRPCRequest becomes after the preflight hook rewrote the
reserved key to the saved path. -/
def goodDispatched : RPCRequest :=
  ⟨"publish", [(fileNameParam, JSON.str "up/1/R0_a"), ("name", JSON.str "x")]⟩

/-- A fully successful run: authenticated user 1 with a backend address,
a parsable envelope, a successful call and serialization. -/
def envGood : HandleEnv :=
  ⟨.ok ⟨1, "addr"⟩, reqGood, false, none,
   fun _ => .ok goodRPCRequest,
   fun _ => .ok ⟨.str "ok"⟩,
   fun _ => .ok "serialized"⟩

/-- An upload whose buffered copy to disk fails after the scratch file was
created. -/
def reqCopyFail : Request :=
  ⟨fun _ => .ok ⟨"a", some (.ioErr "copy failed")⟩, fun _ => "j"⟩

/-- envGood with the failing copy. -/
def envCopyFail : HandleEnv := { envGood with req := reqCopyFail }

/-- envGood with a JSONRPC envelope that does not parse. -/
def envParseFail : HandleEnv := { envGood with jsonParse := fun _ => .error (.jsonErr "bad") }

/-- envGood with an authenticated user lacking a backend address. -/
def envNoSdk : HandleEnv := { envGood with authResult := .ok ⟨1, ""⟩ }

/-- A request with no file part: FormFile fails with ErrMissingFile. -/
def reqMissingFile : Request := ⟨fun _ => .error .missingFile, fun _ => ""⟩

/-- A request that is not multipart at all: FormFile fails with
ErrNotMultipart, yet the JSONRPC field is non-empty. -/
def reqNotMultipart : Request :=
  ⟨fun _ => .error .notMultipart, fun k => if k == jsonRPCFieldName then "x" else ""⟩

theorem mapLookup_mapSet (m : List (String × JSON)) (k : String) (v : JSON) :
    mapLookup (mapSet m k v) k = some v := by
  induction m with
  | nil => simp [mapSet, mapLookup]
  | cons hd tl ih =>
      by_cases hk : hd.1 = k
      · simp [mapSet, hk, mapLookup]
      · simp [mapSet, hk, mapLookup, ih]

theorem saveFile_err_none_iff (h : Handler) (r : Request) (uid : Int) (env : FsEnv) :
    (h.saveFile r uid env).err = none ↔ (h.saveFile r uid env).file.isSome = true := by
  unfold Handler.saveFile
  repeat' split
  all_goals simp

theorem handle_fs_spec (h : Handler) (env : HandleEnv) (d : FsEnv) :
    (h.Handle env d).savedPath = none ∨
    ∃ (pth : String) (l : List String), (h.Handle env d).savedPath = some pth ∧
      (h.Handle env d).fs = l.filter (fun q => q != pth) := by
  unfold Handler.Handle
  dsimp only
  repeat' split
  all_goals first
    | (left; rfl)
    | (right; exact ⟨_, _, rfl, rfl⟩)

theorem tempFileTry_ok (n : Nat) (i : Nat) (dir pattern : String) (env : FsEnv)
    (f : FileHandle) (fs1 : List String)
    (hok : tempFileTry n i dir pattern env = (.ok f, fs1)) :
    fs1 = f.name :: env.fs ∧ f.name ∉ env.fs ∧
      ∃ j, f.name = goPathJoin dir (tempName pattern (env.rands j)) := by
  induction n generalizing i with
  | zero => simp [tempFileTry] at hok
  | succ n ih =>
      rw [tempFileTry] at hok
      split at hok
      · exact ih (i + 1) hok
      · rename_i hmem
        simp only [Prod.mk.injEq, Except.ok.injEq] at hok
        obtain ⟨hf, hfs⟩ := hok
        subst hf
        subst hfs
        exact ⟨rfl, hmem, i, rfl⟩

theorem createFile_ok (h : Handler) (uid : Int) (orig : String) (env : FsEnv)
    (f : FileHandle) (fs1 : List String)
    (hok : h.createFile uid orig env = (.ok f, fs1)) :
    fs1 = f.name :: goPathJoin h.UploadPath (toString uid) :: env.fs ∧
      f.name ∉ goPathJoin h.UploadPath (toString uid) :: env.fs ∧
      ∃ j, f.name = goPathJoin (goPathJoin h.UploadPath (toString uid))
        (tempName ("*_" ++ orig) (env.rands j)) := by
  unfold Handler.createFile at hok
  dsimp only at hok
  split at hok
  · simp at hok
  · exact tempFileTry_ok 10000 0 _ _ _ f fs1 hok

theorem tempName_no_star (orig rand : String) (hstar : '*' ∉ orig.toList) :
    tempName ("*_" ++ orig) rand = rand ++ "_" ++ orig := by
  have htl : ("*_" ++ orig).toList = '*' :: '_' :: orig.toList := by
    cases orig; rfl
  have hns : ¬ ('*' ∈ '_' :: orig.toList) := by
    intro hmem
    rcases List.mem_cons.mp hmem with h1 | h1
    · exact absurd h1 (by decide)
    · exact hstar h1
  have hsplit : splitLastStar ('*' :: '_' :: orig.toList) = ([], '_' :: orig.toList) := by
    rw [splitLastStar, if_neg hns, if_pos rfl]
  unfold tempName
  rw [htl, hsplit]
  dsimp only
  have h1 : (List.asString []) = "" := rfl
  have h2 : ('_' :: orig.toList).asString = "_" ++ orig := by
    cases orig; rfl
  rw [h1, h2]
  rw [← String.append_assoc]
  simp

/-- C1: for every request in which saveFile returns successfully, the
scratch file is deleted by the time Handler.Handle returns, on every exit
path alike (JSON-parse failure, Call failure, serialization failure, and
success), because the deletion step is registered right after saveFile
succeeds and before the JSON envelope is parsed. -/
theorem handle_deletes_scratch_file (h : Handler) (env : HandleEnv) (d : FsEnv) (p : String)
    (hs : (h.Handle env d).savedPath = some p) : p ∉ (h.Handle env d).fs := by
  rcases handle_fs_spec h env d with hnone | ⟨pth, l, hp, hfs⟩
  · rw [hnone] at hs; exact absurd hs (by simp)
  · rw [hp] at hs
    cases hs
    rw [hfs]
    simp [List.mem_filter]

/-- C1 witness: a concrete successful run saves the scratch file at
up/1/R0_a and the final filesystem no longer holds it. -/
theorem handle_deletes_scratch_file_witness :
    (hUp.Handle envGood fsEnv0).savedPath = some "up/1/R0_a" ∧
      "up/1/R0_a" ∉ (hUp.Handle envGood fsEnv0).fs :=
  ⟨by decide, handle_deletes_scratch_file hUp envGood fsEnv0 "up/1/R0_a" (by decide)⟩

/-- C2: the Caller built by getCaller carries exactly one registered
preflight hook, and every request it actually dispatches downstream has
the reserved file-path key bound to the saved file path, overwriting any
client-supplied value under that key. -/
theorem getCaller_rewrites_file_path (sdkAddress filename : String) (userID : Int)
    (qCache : Option QueryCache) (oracle : RPCRequest → Except GoErr RPCResponse)
    (req req1 : RPCRequest)
    (hd : ((getCaller sdkAddress filename userID qCache).Call oracle req).dispatched = some req1) :
    (getCaller sdkAddress filename userID qCache).hooks.length = 1 ∧
      mapLookup req1.params fileNameParam = some (JSON.str filename) := by
  refine ⟨rfl, ?_⟩
  unfold getCaller Caller.Call NewCaller Caller.AddPreflightHook runHooks at hd
  dsimp only [Query.ParamsAsMap] at hd
  cases hd
  exact mapLookup_mapSet req.params fileNameParam (JSON.str filename)

/-- C2 witness: dispatching a request whose client set file_path to evil
delivers a request whose file_path is the saved path up/1/R0_a. -/
theorem getCaller_rewrites_file_path_witness :
    (getCaller "addr" "up/1/R0_a" 1 none).hooks.length = 1 ∧
      mapLookup goodDispatched.params fileNameParam = some (JSON.str "up/1/R0_a") :=
  getCaller_rewrites_file_path "addr" "up/1/R0_a" 1 none (fun _ => .ok ⟨.str "ok"⟩)
    goodRPCRequest goodDispatched (by decide)

/-- C3 counterexample: when the buffered copy fails after the scratch file
was created, saveFile reports the error, yet the scratch file up/1/R0_a is
still present in the filesystem Handle leaves behind, contradicting the
claim that the Bridge Handler cleanup ultimately deletes it. -/
theorem handle_copy_failure_leaves_scratch_file :
    (hUp.saveFile reqCopyFail 1 fsEnv0).err = some (GoErr.ioErr "copy failed") ∧
      "up/1/R0_a" ∈ (hUp.Handle envCopyFail fsEnv0).fs := by decide

/-- C3 amended: when saveFile fails after the scratch file was created,
Handle writes an internal error and returns with the filesystem exactly as
saveFile left it; the deferred deletion is only registered when saveFile
succeeds, so the partially written scratch file is not deleted. -/
theorem handle_save_failure_no_cleanup (h : Handler) (env : HandleEnv) (d : FsEnv) (user : User)
    (e : GoErr) (ha : env.authResult = .ok user) (hsdk : user.sdkAddress ≠ "")
    (he : (h.saveFile env.req user.id d).err = some e) :
    (h.Handle env d).response = .internalError e ∧
    (h.Handle env d).fs = (h.saveFile env.req user.id d).fs := by
  unfold Handler.Handle
  rw [ha]
  dsimp only
  rw [if_neg hsdk]
  simp [he]

/-- C3 amended witness: the concrete failing-copy run returns the internal
error and leaves the filesystem untouched relative to saveFile. -/
theorem handle_save_failure_no_cleanup_witness :
    (hUp.Handle envCopyFail fsEnv0).response = .internalError (GoErr.ioErr "copy failed") ∧
      (hUp.Handle envCopyFail fsEnv0).fs = (hUp.saveFile reqCopyFail 1 fsEnv0).fs :=
  handle_save_failure_no_cleanup hUp envCopyFail fsEnv0 ⟨1, "addr"⟩ (GoErr.ioErr "copy failed")
    (by decide) (by decide) (by decide)

/-- C4 counterexample: a request that is not multipart at all has no file
part (FormFile fails with ErrNotMultipart), yet CanHandle returns true as
soon as the JSON payload field is non-empty, so CanHandle is not the
claimed file-part-present conjunction. -/
theorem canHandle_true_without_file_part :
    hUp.CanHandle reqNotMultipart = true ∧ hasFilePart reqNotMultipart = false := by decide

/-- C4 amended: CanHandle returns true iff FormFile on the reserved upload
field does not fail with the missing-file error (any other outcome,
success or a different error, passes) and the reserved JSON-payload field
is non-empty. -/
theorem canHandle_iff_not_missing_file (h : Handler) (r : Request) :
    h.CanHandle r = true ↔
      (isMissingFileErr (r.formFile fileFieldName) = false ∧
        r.formValue jsonRPCFieldName ≠ "") := by
  unfold Handler.CanHandle
  cases hb : isMissingFileErr (r.formFile fileFieldName) <;>
    simp [hb, bne_iff_ne]

/-- C4 amended witness: the healthy request with a file part and non-empty
payload is matched. -/
theorem canHandle_iff_not_missing_file_witness :
    hUp.CanHandle reqGood = true :=
  (canHandle_iff_not_missing_file hUp reqGood).mpr ⟨by decide, by decide⟩

/-- C5: when the JSON payload does not parse, the handler dispatches
nothing downstream (Call is never invoked) and writes the JSON-parse-error
shaped body. -/
theorem handle_parse_error_no_dispatch (h : Handler) (env : HandleEnv) (d : FsEnv) (user : User)
    (e : GoErr) (ha : env.authResult = .ok user) (hsdk : user.sdkAddress ≠ "")
    (hsv : (h.saveFile env.req user.id d).err = none)
    (hp : env.jsonParse (env.req.formValue jsonRPCFieldName) = .error e) :
    (h.Handle env d).dispatched = none ∧ (h.Handle env d).response = .jsonParseError e := by
  obtain ⟨f, hf⟩ : ∃ f, (h.saveFile env.req user.id d).file = some f := by
    have h2 := (saveFile_err_none_iff h env.req user.id d).mp hsv
    exact Option.isSome_iff_exists.mp h2
  unfold Handler.Handle
  rw [ha]
  dsimp only
  rw [if_neg hsdk]
  simp [hsv, hf, hp]

/-- C5 witness: the concrete run with an unparsable payload performs no
dispatch and answers with the parse-error body. -/
theorem handle_parse_error_no_dispatch_witness :
    (hUp.Handle envParseFail fsEnv0).dispatched = none ∧
      (hUp.Handle envParseFail fsEnv0).response = .jsonParseError (GoErr.jsonErr "bad") :=
  handle_parse_error_no_dispatch hUp envParseFail fsEnv0 ⟨1, "addr"⟩ (GoErr.jsonErr "bad")
    (by decide) (by decide) (by decide) (by decide)

/-- C6: an authenticated user whose SDK address is the empty string gets
the fixed internal-error body, and the handler returns before saveFile is
invoked: the filesystem is unchanged, nothing is saved, nothing is
dispatched. -/
theorem handle_no_sdk_address (h : Handler) (env : HandleEnv) (d : FsEnv) (user : User)
    (ha : env.authResult = .ok user) (hsdk : user.sdkAddress = "") :
    (h.Handle env d).response = .internalError (.err "user does not have sdk address assigned") ∧
    (h.Handle env d).fs = d.fs ∧ (h.Handle env d).savedPath = none ∧
    (h.Handle env d).dispatched = none := by
  unfold Handler.Handle
  rw [ha]
  simp [hsdk]

/-- C6 witness: the concrete run for user 1 with an empty SDK address. -/
theorem handle_no_sdk_address_witness :
    (hUp.Handle envNoSdk fsEnv0).response
        = .internalError (.err "user does not have sdk address assigned") ∧
      (hUp.Handle envNoSdk fsEnv0).fs = fsEnv0.fs ∧
      (hUp.Handle envNoSdk fsEnv0).savedPath = none ∧
      (hUp.Handle envNoSdk fsEnv0).dispatched = none :=
  handle_no_sdk_address hUp envNoSdk fsEnv0 ⟨1, ""⟩ (by decide) (by decide)

/-- C7: when the request lacks the file form part, saveFile fails with the
missing-file error from the form parser and returns before createFile is
called: no per-user directory and no file appears in the filesystem. -/
theorem saveFile_missing_file_no_dir (h : Handler) (r : Request) (uid : Int) (env : FsEnv)
    (hm : r.formFile fileFieldName = .error .missingFile) :
    (h.saveFile r uid env).file = none ∧ (h.saveFile r uid env).err = some .missingFile ∧
    (h.saveFile r uid env).fs = env.fs := by
  unfold Handler.saveFile
  rw [hm]
  exact ⟨rfl, rfl, rfl⟩

/-- C7 witness: the concrete request without a file part. -/
theorem saveFile_missing_file_no_dir_witness :
    (hUp.saveFile reqMissingFile 1 fsEnv0).file = none ∧
      (hUp.saveFile reqMissingFile 1 fsEnv0).err = some .missingFile ∧
      (hUp.saveFile reqMissingFile 1 fsEnv0).fs = fsEnv0.fs :=
  saveFile_missing_file_no_dir hUp reqMissingFile 1 fsEnv0 (by decide)

/-- C8 counterexample: for the original filename a*b (which contains a
star), ioutil.TempFile substitutes the random string for the LAST star of
the pattern, which lies inside the original filename, so createFile makes
up/7/*_aR0b instead of the claimed random-prefix shape up/7/R0_a*b. -/
theorem createFile_star_pattern_counterexample :
    (hUp.createFile 7 "a*b" fsEnv0).1 = .ok ⟨"up/7/*_aR0b"⟩ ∧
      ("up/7/*_aR0b" : String) ≠ "up/7/R0_a*b" := by decide

/-- C8 amended: for every successful createFile whose original filename
contains no star, the resulting path is UploadPath joined with the decimal
user id as the directory and a file name of the form random prefix,
underscore, original filename; a star inside the original filename instead
absorbs the random string at its last occurrence. -/
theorem createFile_path_shape (h : Handler) (uid : Int) (orig : String) (env : FsEnv)
    (f : FileHandle) (fs1 : List String) (hstar : '*' ∉ orig.toList)
    (hok : h.createFile uid orig env = (.ok f, fs1)) :
    ∃ j, f.name = goPathJoin (goPathJoin h.UploadPath (toString uid))
      (env.rands j ++ "_" ++ orig) := by
  obtain ⟨-, -, j, hj⟩ := createFile_ok h uid orig env f fs1 hok
  exact ⟨j, by rw [hj, tempName_no_star orig (env.rands j) hstar]⟩

/-- C8 amended witness: the concrete creation for user 1 and filename a
lands at up/1/R0_a. -/
theorem createFile_path_shape_witness :
    ∃ j, (FileHandle.mk "up/1/R0_a").name =
      goPathJoin (goPathJoin hUp.UploadPath (toString (1 : Int))) (fsEnv0.rands j ++ "_" ++ "a") :=
  createFile_path_shape hUp 1 "a" fsEnv0 ⟨"up/1/R0_a"⟩ ["up/1/R0_a", "up/1"]
    (by decide) (by decide)

/-- C9: two successful createFile invocations for the same user and the
same original filename, the second seeing the filesystem the first left
behind, return distinct paths: exclusive creation retries any random name
that already exists. -/
theorem createFile_distinct_paths (h : Handler) (uid : Int) (orig : String) (env : FsEnv)
    (f1 f2 : FileHandle) (fs1 fs2 : List String)
    (h1 : h.createFile uid orig env = (.ok f1, fs1))
    (h2 : h.createFile uid orig { env with fs := fs1 } = (.ok f2, fs2)) :
    f1.name ≠ f2.name := by
  obtain ⟨hfs1, -, -⟩ := createFile_ok h uid orig env f1 fs1 h1
  obtain ⟨-, hnot, -⟩ := createFile_ok h uid orig { env with fs := fs1 } f2 fs2 h2
  intro heq
  apply hnot
  rw [← heq]
  subst hfs1
  exact List.mem_cons_of_mem _ (List.mem_cons_self _ _)

/-- C9 witness: the second concrete creation collides with up/1/R0_a on
its first random draw and retries, landing at the distinct up/1/R1_a. -/
theorem createFile_distinct_paths_witness :
    (FileHandle.mk "up/1/R0_a").name ≠ (FileHandle.mk "up/1/R1_a").name :=
  createFile_distinct_paths hUp 1 "a" fsEnv0 ⟨"up/1/R0_a"⟩ ⟨"up/1/R1_a"⟩
    ["up/1/R0_a", "up/1"] ["up/1/R1_a", "up/1", "up/1/R0_a", "up/1"]
    (by decide) (by decide)

/-- C10: the results of saveFile are mutually exclusive: a returned error
comes with a nil file handle, and a returned file handle comes with a nil
error, on every path through saveFile. -/
theorem saveFile_file_err_mutually_exclusive (h : Handler) (r : Request) (uid : Int)
    (env : FsEnv) :
    (∀ e, (h.saveFile r uid env).err = some e → (h.saveFile r uid env).file = none) ∧
    (∀ f, (h.saveFile r uid env).file = some f → (h.saveFile r uid env).err = none) := by
  constructor
  · intro e he
    rcases hfile : (h.saveFile r uid env).file with _ | f
    · rfl
    · have hnone := (saveFile_err_none_iff h r uid env).mpr (by rw [hfile]; rfl)
      rw [hnone] at he
      cases he
  · intro f hf
    exact (saveFile_err_none_iff h r uid env).mpr (by rw [hf]; rfl)

/-- C10 witness: a failing save returns no handle, and a successful save
returns no error, at concrete requests. -/
theorem saveFile_file_err_mutually_exclusive_witness :
    (hUp.saveFile reqMissingFile 1 fsEnv0).file = none ∧
      (hUp.saveFile reqGood 1 fsEnv0).err = none :=
  ⟨(saveFile_file_err_mutually_exclusive hUp reqMissingFile 1 fsEnv0).1 .missingFile (by decide),
   (saveFile_file_err_mutually_exclusive hUp reqGood 1 fsEnv0).2 ⟨"up/1/R0_a"⟩ (by decide)⟩
